import Mathlib

/-!
Verification of the GLEE Human UI backend (Python sources under src/backend)
against its natural-language specification.

The Python modules are shallowly embedded as Lean definitions:

- glee_bridge.py  : the GLEEBridge class becomes an explicit state machine
  (BridgeState) with one transition function per method.  Python object
  identity of PendingTurn values matters (a suspended waiter holds a
  reference to the turn object it captured on entry, while the pending
  table may meanwhile point at a newer object), so turn objects live in an
  explicit heap addressed by allocation order.
- game_manager.py : the static outcome classifier parse_outcome, with the
  line scanning, substring tests, the brace-fragment regular expression and
  the JSON reading done concretely on character lists.
- ai_assistant.py : the split-suggestion normalisation branch; Python
  floats are modelled by exact rationals, and the Python built-in round
  (round half to even) is modelled by roundHalfEven.
- main.py         : the decision-turn classification and last-offer
  extraction performed by the glee_chat endpoint, and the session guards of
  the HTTP and WebSocket handlers.

Stdlib behaviour used by the code (regular expressions, json.loads, int(),
str.lower, str.splitlines, float conversion) is implemented here on
List Char / String at the fidelity the embedded call sites exercise; the
few unexercised corners (string escape sequences, non-integral JSON
numbers) are mapped to parse failure and are noted at their definitions.
-/

namespace GleeHumanUI

/-! ## Generic helpers -/

/-- Point update of a function-valued dictionary (Python dict assignment). -/
def updFn {α β : Type} [DecidableEq α] (f : α → β) (k : α) (v : β) : α → β :=
  fun x => if x = k then v else f x

/-- Python substring test (the in operator) on character lists. -/
def containsSubL (hay pat : List Char) : Bool :=
  match hay with
  | [] => pat.isEmpty
  | _ :: t => pat.isPrefixOf hay || containsSubL t pat

/-- Python substring test on strings. -/
def containsSub (hay pat : String) : Bool :=
  containsSubL hay.data pat.data

/-- Python str.lower, at ASCII fidelity (all content the code lowers is ASCII). -/
def strLower (s : String) : String :=
  String.mk (s.data.map Char.toLower)

/-! ## glee_bridge.py — the GLEEBridge state machine

PendingTurn objects are mutable Python objects; submit_response mutates the
object currently referenced by the pending table, while a waiter suspended
inside wait_for_response holds its own reference captured on entry.  The
heap field makes that aliasing explicit: turn objects are addressed by a
Nat allocated at register_turn time (Python object identity), and the
pending table maps a session id to such an address. -/

/-- Fields of a PendingTurn (glee_bridge.py lines 19-26).  The asyncio.Event
is represented by its set/unset bit. -/
structure TurnData where
  messages : List (String × String)
  decision : Bool
  gameParams : List (String × String)
  eventSet : Bool
  response : Option String
deriving DecidableEq

instance : Inhabited TurnData :=
  ⟨{ messages := [], decision := false, gameParams := [], eventSet := false, response := none }⟩

/-- The GLEEBridge instance state (glee_bridge.py lines 32-36): the pending
dict, the chat-count dict, plus the object heap and an allocation counter
realising Python object identity for PendingTurn values. -/
structure BridgeState where
  heap : Nat → TurnData
  pending : String → Option Nat
  chatCount : String → Option Nat
  nextId : Nat

/-- The freshly constructed bridge singleton (glee_bridge.py line 111). -/
def initialBridge : BridgeState :=
  { heap := fun _ => default, pending := fun _ => none, chatCount := fun _ => none, nextId := 0 }

/-- GLEEBridge.register_turn (glee_bridge.py lines 38-60): bump the chat
count, build a fresh PendingTurn with an unset event and no response, and
store it in the pending dict, unconditionally overwriting any prior entry
for the session.  Returns the new state together with the identity of the
turn object handed back to the caller. -/
def register_turn (st : BridgeState) (sid : String)
    (msgs : List (String × String)) (dec : Bool) (params : List (String × String)) :
    BridgeState × Nat :=
  let cnt := (st.chatCount sid).getD 0 + 1
  let t : TurnData :=
    { messages := msgs, decision := dec, gameParams := params, eventSet := false, response := none }
  let tid := st.nextId
  ({ heap := updFn st.heap tid t,
     pending := updFn st.pending sid (some tid),
     chatCount := updFn st.chatCount sid (some cnt),
     nextId := tid + 1 }, tid)

/-- GLEEBridge.submit_response (glee_bridge.py lines 62-73): look up the
pending turn for the session; if none, return False; otherwise set its
response and its event and return True.  The pending table entry itself is
not removed here. -/
def submit_response (st : BridgeState) (sid : String) (resp : String) :
    BridgeState × Bool :=
  match st.pending sid with
  | none => (st, false)
  | some tid =>
      let t := st.heap tid
      ({ st with heap := updFn st.heap tid { t with response := some resp, eventSet := true } },
       true)

/-- GLEEBridge.get_pending (glee_bridge.py lines 75-77): non-mutating read
of the pending table (the returned value is the turn object reference). -/
def get_pending (st : BridgeState) (sid : String) : Option Nat :=
  st.pending sid

/-- GLEEBridge.get_round_number (glee_bridge.py lines 79-85):
chat count with default 0. -/
def get_round_number (st : BridgeState) (sid : String) : Nat :=
  (st.chatCount sid).getD 0

/-- GLEEBridge.clear (glee_bridge.py lines 87-90): drop both dict entries
for the session. -/
def clear (st : BridgeState) (sid : String) : BridgeState :=
  { st with pending := updFn st.pending sid none, chatCount := updFn st.chatCount sid none }

/-- Resumption of a waiter inside GLEEBridge.wait_for_response
(glee_bridge.py lines 101-107).  The waiter captured the turn reference tid
on entry; it resumes either because the event was set (timedOut = false,
reads the turn object response) or because the timeout elapsed
(timedOut = true, the asyncio.TimeoutError branch returns None).  On both
paths the finally clause pops the pending entry for the session id —
whatever turn reference that entry currently holds. -/
def wait_end (st : BridgeState) (sid : String) (tid : Nat) (timedOut : Bool) :
    BridgeState × Option String :=
  let res := if timedOut then none else (st.heap tid).response
  ({ st with pending := updFn st.pending sid none }, res)

/-- GLEEBridge.wait_for_response (glee_bridge.py lines 92-107) as one step,
for executions in which nothing interleaves between entry and resumption:
if no turn is pending the call returns None at once without touching the
table (the early return precedes the try/finally); otherwise it resumes as
wait_end on the captured reference. -/
def wait_for_response (st : BridgeState) (sid : String) (timedOut : Bool) :
    BridgeState × Option String :=
  match st.pending sid with
  | none => (st, none)
  | some tid => wait_end st sid tid timedOut

/-- Externally driven bridge transitions, for stating trace properties:
a /chat registration, a human response submission, and a waiter resumption
(wait_end on the reference the waiter captured). -/
inductive BridgeOp where
  | register (sid : String) (msgs : List (String × String)) (dec : Bool)
      (params : List (String × String))
  | submit (sid : String) (resp : String)
  | waitFin (sid : String) (tid : Nat) (timedOut : Bool)

/-- State reached after one bridge operation. -/
def runOp (st : BridgeState) : BridgeOp → BridgeState
  | .register sid m d p => (register_turn st sid m d p).1
  | .submit sid r => (submit_response st sid r).1
  | .waitFin sid tid b => (wait_end st sid tid b).1

/-- State reached after a sequence of bridge operations. -/
def runOps (st : BridgeState) : List BridgeOp → BridgeState
  | [] => st
  | op :: rest => runOps (runOp st op) rest

/-- Number of register_turn calls for a given session in a trace. -/
def countRegs (sid : String) : List BridgeOp → Nat
  | [] => 0
  | .register s _ _ _ :: rest => (if s = sid then 1 else 0) + countRegs sid rest
  | .submit _ _ :: rest => countRegs sid rest
  | .waitFin _ _ _ :: rest => countRegs sid rest

/-- Every turn reference held in the pending table was allocated before the
current allocation counter (true of every reachable bridge state). -/
def PendingFresh (st : BridgeState) : Prop :=
  ∀ s t, st.pending s = some t → t < st.nextId

/-! ## Text machinery shared by the parsing code

Character-level implementations of the stdlib pieces the Python code
leans on: regex whitespace, word characters, digit runs, fragment finding,
thousands-separator stripping, and a JSON object reader covering the value
shapes the embedded call sites feed it (flat objects of string keys and
integer or string values; escape sequences and non-integral numbers are
mapped to parse failure, which only widens the failure branches the claims
exercise at concrete inputs). -/

/-- Python regex class backslash-s at ASCII fidelity. -/
def isPySpace (c : Char) : Bool :=
  c = ' ' || c = '\t' || c = '\n' || c = '\r' || c = '\x0b' || c = '\x0c'

/-- Python regex class backslash-w at ASCII fidelity. -/
def isWordChar (c : Char) : Bool :=
  c.isAlphanum || c = '_'

/-- Numeric value of a digit run. -/
def digitsVal (ds : List Char) : Nat :=
  ds.foldl (fun a c => a * 10 + (c.toNat - 48)) 0

/-- Case-insensitive literal match (pattern given in lowercase); returns the
rest of the input on success. -/
def matchCI : List Char → List Char → Option (List Char)
  | [], s => some s
  | _ :: _, [] => none
  | p :: ps, c :: cs => if c.toLower = p then matchCI ps cs else none

/-- Case-sensitive literal match; returns the rest of the input on success. -/
def matchExact : List Char → List Char → Option (List Char)
  | [], s => some s
  | _ :: _, [] => none
  | p :: ps, c :: cs => if c = p then matchExact ps cs else none

/-- Python str.strip on a character list. -/
def pyStrip (l : List Char) : String :=
  String.mk (((l.dropWhile isPySpace).reverse.dropWhile isPySpace).reverse)

/-- Characters up to the first closing brace, any character (including an
opening brace) allowed inside; fails when no closing brace follows.  This is
the body of a non-greedy brace-to-brace regex match under DOTALL. -/
def takeUntilClose : List Char → Option (List Char × List Char)
  | [] => none
  | c :: t =>
      if c = '\x7d' then some ([], t)
      else (takeUntilClose t).map (fun p => (c :: p.1, p.2))

/-- Characters up to the first closing brace, rejecting any inner brace:
the body of a brace-fragment match for the character class excluding both
braces. -/
def takeNoBrace : List Char → Option (List Char)
  | [] => none
  | c :: t =>
      if c = '\x7d' then some []
      else if c = '\x7b' then none
      else (takeNoBrace t).map (c :: ·)

/-- re.search of the non-greedy brace fragment with DOTALL
(ai_assistant.py line 94): first opening brace from which a closing brace
is reachable, fragment up to the nearest closing brace. -/
def searchFragDotAll : List Char → Option (List Char)
  | [] => none
  | c :: t =>
      if c = '\x7b' then
        match takeUntilClose t with
        | some (inside, _) => some ('\x7b' :: inside ++ ['\x7d'])
        | none => searchFragDotAll t
      else searchFragDotAll t

/-- re.search of the brace fragment whose interior excludes braces
(game_manager.py line 170): first match in left-to-right scan. -/
def searchBraceFrag : List Char → Option (List Char)
  | [] => none
  | c :: t =>
      if c = '\x7b' then
        match takeNoBrace t with
        | some inside => some ('\x7b' :: inside ++ ['\x7d'])
        | none => searchBraceFrag t
      else searchBraceFrag t

/-- One step of re.findall for the non-greedy DOTALL brace fragment
(main.py line 151), fuelled by input length (the scan position advances at
least one character per step). -/
def findFragsAux : Nat → List Char → List (List Char)
  | 0, _ => []
  | fuel + 1, s =>
      match s with
      | [] => []
      | c :: t =>
          if c = '\x7b' then
            match takeUntilClose t with
            | some (inside, rest) => ('\x7b' :: inside ++ ['\x7d']) :: findFragsAux fuel rest
            | none => findFragsAux fuel t
          else findFragsAux fuel t

/-- re.findall of the non-greedy DOTALL brace fragment (main.py line 151). -/
def findFrags (s : List Char) : List (List Char) :=
  findFragsAux s.length s

/-- Whether the next three characters are digits: the lookahead of the
thousands-separator substitution (main.py line 154). -/
def threeDigits : List Char → Bool
  | a :: b :: c :: _ => a.isDigit && b.isDigit && c.isDigit
  | _ => false

/-- re.sub removing each comma that is preceded by a digit and followed by
three digits (main.py line 154).  The lookbehind inspects the original
previous character, so it is threaded through unchanged even when the
previous character was itself a removed comma. -/
def stripThousandsAux (prev : Option Char) : List Char → List Char
  | [] => []
  | c :: t =>
      if c = ',' && (match prev with | some p => p.isDigit | none => false) && threeDigits t
      then stripThousandsAux (some ',') t
      else c :: stripThousandsAux (some c) t

/-- re.sub of the digit-comma-digits thousands separator (main.py line 154). -/
def stripThousands (l : List Char) : List Char :=
  stripThousandsAux none l

/-! ### JSON object reading (json.loads at the fidelity exercised here) -/

/-- JSON whitespace. -/
def isJsonWS (c : Char) : Bool :=
  c = ' ' || c = '\t' || c = '\n' || c = '\r'

/-- JSON values occurring in the fragments the code feeds json.loads:
integers and plain strings.  (A brace fragment cut at the first closing
brace cannot contain a nested object, so objects never occur as values;
floats, booleans, null and escaped strings are unexercised and read as
parse failure.) -/
inductive JVal where
  | int (n : Int)
  | str (s : String)
deriving DecidableEq

/-- Read a JSON string literal without escapes; fails on a backslash. -/
def jstring (s : List Char) : Option (String × List Char) :=
  match s with
  | '\"' :: rest =>
      let content := rest.takeWhile (fun c => c ≠ '\"')
      if content.any (fun c => c = '\\') then none
      else
        match rest.dropWhile (fun c => c ≠ '\"') with
        | '\"' :: rest2 => some (String.mk content, rest2)
        | _ => none
  | _ => none

/-- Read a JSON integer (optional minus sign, no leading zeros, not
followed by a fraction or exponent). -/
def jint (s : List Char) : Option (Int × List Char) :=
  let (neg, s1) := match s with
    | '-' :: t => (true, t)
    | _ => (false, s)
  let ds := s1.takeWhile Char.isDigit
  if ds.isEmpty then none
  else if 1 < ds.length ∧ ds.headD '0' = '0' then none
  else
    let rest := s1.dropWhile Char.isDigit
    let bad := match rest with
      | c :: _ => c = '.' || c = 'e' || c = 'E'
      | [] => false
    if bad then none
    else
      let v : Int := if neg then -(digitsVal ds : Int) else (digitsVal ds : Int)
      some (v, rest)

/-- Read a JSON value of the supported shapes. -/
def jvalue (s : List Char) : Option (JVal × List Char) :=
  match jstring s with
  | some (str, r) => some (.str str, r)
  | none =>
      match jint s with
      | some (n, r) => some (.int n, r)
      | none => none

/-- Read the members of a JSON object after its opening brace, fuelled by
input length. -/
def jmembers : Nat → List Char → Option (List (String × JVal) × List Char)
  | 0, _ => none
  | fuel + 1, s =>
      match jstring (s.dropWhile isJsonWS) with
      | none => none
      | some (k, r1) =>
          match r1.dropWhile isJsonWS with
          | ':' :: r2 =>
              match jvalue (r2.dropWhile isJsonWS) with
              | none => none
              | some (v, r3) =>
                  match r3.dropWhile isJsonWS with
                  | ',' :: r4 => (jmembers fuel r4).map (fun p => ((k, v) :: p.1, p.2))
                  | '\x7d' :: r4 => some ([(k, v)], r4)
                  | _ => none
          | _ => none

/-- json.loads of a full string that must be a flat object; the whole input
must be consumed (modulo surrounding whitespace), as json.loads demands. -/
def jparseObj (s : List Char) : Option (List (String × JVal)) :=
  match s.dropWhile isJsonWS with
  | '\x7b' :: r =>
      match r.dropWhile isJsonWS with
      | '\x7d' :: r2 => if (r2.dropWhile isJsonWS).isEmpty then some [] else none
      | _ =>
          match jmembers (r.length + 1) r with
          | some (ms, rest) => if (rest.dropWhile isJsonWS).isEmpty then some ms else none
          | none => none
  | _ => none

/-- Python dict lookup on the parsed members (later duplicate keys win, as
in the dict json.loads builds). -/
def jlookup (data : List (String × JVal)) (k : String) : Option JVal :=
  (data.reverse.find? (fun p => p.1 == k)).map (fun p => p.2)

/-- Python int() applied to a decoded JSON value: identity on integers,
digit-string conversion (optional sign, surrounding whitespace) on strings,
none meaning a raised ValueError. -/
def pyInt (v : JVal) : Option Int :=
  match v with
  | .int n => some n
  | .str s =>
      let l := (s.data.dropWhile isPySpace).reverse.dropWhile isPySpace |>.reverse
      let (neg, ds) := match l with
        | '-' :: t => (true, t)
        | '+' :: t => (false, t)
        | _ => (false, l)
      if ds.isEmpty ∨ ¬(ds.all Char.isDigit) then none
      else some (if neg then -(digitsVal ds : Int) else (digitsVal ds : Int))

/-- Python float() applied to a decoded JSON value, at the fidelity needed
here: exact on integers and integral digit strings, none (a raised
ValueError) otherwise.  Python floats are modelled throughout by exact
rationals; every value the claims exercise is exactly representable. -/
def pyFloat (v : JVal) : Option ℚ :=
  match v with
  | .int n => some (n : ℚ)
  | .str s =>
      match pyInt (.str s) with
      | some n => some (n : ℚ)
      | none => none

/-- Python round (round half to even) on a rational. -/
def roundHalfEven (q : ℚ) : ℤ :=
  let f : ℤ := ⌊q⌋
  let r : ℚ := q - (f : ℚ)
  if r < 1/2 then f
  else if 1/2 < r then f + 1
  else if f % 2 = 0 then f else f + 1

/-! ## game_manager.py — GameManager.parse_outcome (lines 153-180) -/

/-- Python str.splitlines at the fidelity of the terminators occurring in
captured process output (LF, CRLF, CR); no trailing empty line. -/
def splitLinesAux (cur : List Char) : List Char → List (List Char)
  | [] => if cur.isEmpty then [] else [cur.reverse]
  | '\r' :: '\n' :: t => cur.reverse :: splitLinesAux [] t
  | '\n' :: t => cur.reverse :: splitLinesAux [] t
  | '\r' :: t => cur.reverse :: splitLinesAux [] t
  | c :: t => splitLinesAux (c :: cur) t

/-- Python str.splitlines on a string. -/
def splitLines (s : String) : List (List Char) :=
  splitLinesAux [] s.data

/-- What one stdout line contributes to the reverse gain scan of
parse_outcome (game_manager.py lines 168-178): skipped entirely (no
alice_gain substring, no brace fragment, json failure, or int() failure on
the alice value — all swallowed by the except clause with no assignment
made); only the alice assignment performed before int() failed on the bob
value (the loop then continues); or both assignments followed by break. -/
inductive LineRes where
  | skip
  | setA (a : Int)
  | final (a b : Int)
deriving DecidableEq

/-- Evaluate one line of the reverse scan (game_manager.py lines 169-178). -/
def lineRes (line : List Char) : LineRes :=
  if containsSubL line ("alice_gain".data) then
    match searchBraceFrag line with
    | none => .skip
    | some frag =>
        match jparseObj frag with
        | none => .skip
        | some data =>
            match pyInt ((jlookup data "alice_gain").getD (.int 0)) with
            | none => .skip
            | some a =>
                match pyInt ((jlookup data "bob_gain").getD (.int 0)) with
                | none => .setA a
                | some b => .final a b
  else .skip

/-- The reverse scan accumulating the final_alice / final_bob variables
(game_manager.py lines 166-178); the lines are supplied already reversed. -/
def scanGains : List (List Char) → Int × Int → Int × Int
  | [], acc => acc
  | l :: rest, (fa, fb) =>
      match lineRes l with
      | .skip => scanGains rest (fa, fb)
      | .setA a => scanGains rest (a, fb)
      | .final a b => (a, b)

/-- GameManager.parse_outcome (game_manager.py lines 153-180): non-zero
exit is an error with zero gains; with exit 0, absence of the lowercase
acceptance marker is no_deal with zero gains; otherwise the outcome is deal
with the gains produced by the reverse line scan. -/
def parse_outcome (stdout : String) (returncode : Int) : String × Int × Int :=
  if returncode ≠ 0 then ("error", 0, 0)
  else
    let accepted := containsSub (strLower stdout) "accepted the offer"
    if ¬accepted then ("no_deal", 0, 0)
    else
      let g := scanGains (splitLines stdout).reverse (0, 0)
      ("deal", g.1, g.2)

/-! ## ai_assistant.py — the split branch of suggest (lines 92-109) -/

/-- The split-suggestion post-processing of the provider reply text
(ai_assistant.py lines 92-109): locate the first non-greedy brace fragment,
json-parse it, read the two gain fields (defaulting to the 60/40 split of
the pot), and when their sum is positive renormalise so the pair sums to
the pot exactly: alice is rounded from her proportional share and bob is
the remainder.  Any located-fragment decode or conversion failure falls
back to the rounded 60/40 split.  Floats are modelled by exact rationals
and round by roundHalfEven. -/
def suggest_split (text : String) (money : ℤ) : ℚ × ℚ :=
  let fallbackPair : ℚ × ℚ :=
    ((roundHalfEven ((6 / 10 : ℚ) * (money : ℚ)) : ℤ),
     (roundHalfEven ((4 / 10 : ℚ) * (money : ℚ)) : ℤ))
  match searchFragDotAll text.data with
  | none => fallbackPair
  | some frag =>
      match jparseObj frag with
      | none => fallbackPair
      | some data =>
          let aliceO : Option ℚ :=
            match jlookup data "alice_gain" with
            | some v => pyFloat v
            | none => some ((6 / 10 : ℚ) * (money : ℚ))
          let bobO : Option ℚ :=
            match jlookup data "bob_gain" with
            | some v => pyFloat v
            | none => some ((4 / 10 : ℚ) * (money : ℚ))
          match aliceO, bobO with
          | some alice, some bob =>
              let total := alice + bob
              if 0 < total then
                let a : ℤ := roundHalfEven (alice / total * (money : ℚ))
                ((a : ℚ), ((money - a : ℤ) : ℚ))
              else (alice, bob)
          | _, _ => fallbackPair

/-! ## main.py — glee_chat turn classification (lines 110-123) -/

/-- The content scan of the most recent user or system message
(main.py lines 113-121): the loop walks the reversed message list, skips
roles other than user and system, and on the first such message evaluates
the decision heuristics on the lowercased content and stops (the break sits
inside the role test). -/
def scanDecision : List (String × String) → Bool
  | [] => false
  | (role, content) :: rest =>
      if role = "user" ∨ role = "system" then
        let cl := strLower content
        (containsSub cl "accept" && containsSub cl "reject")
          || containsSub cl "do you accept"
          || containsSub cl "\x7b\"decision\""
      else scanDecision rest

/-- Decision-turn classification of glee_chat (main.py lines 112-122): the
explicit engine flag, or — when it is unset and messages exist — the
content heuristics on the most recent user/system message. -/
def is_decision_turn (reqDecision : Bool) (msgs : List (String × String)) : Bool :=
  if reqDecision then true
  else if msgs.isEmpty then false
  else scanDecision msgs.reverse

/-! ## main.py — glee_chat last-offer extraction (lines 125-162) -/

/-- The matcher of the labeled-gain regex at one position: hash, optional
whitespace, the player name case-insensitively, mandatory whitespace, the
literal gain-colon, optional whitespace, then a non-empty run of digits and
commas (the captured group). -/
def matchGainAt (label : List Char) (s : List Char) : Option (List Char) :=
  match s with
  | [] => none
  | c :: rest =>
      if c = '#' then
        match matchCI label (rest.dropWhile isPySpace) with
        | none => none
        | some s2 =>
            match s2 with
            | c2 :: _ =>
                if isPySpace c2 then
                  match matchCI ("gain:".data) (s2.dropWhile isPySpace) with
                  | none => none
                  | some s4 =>
                      let digits := (s4.dropWhile isPySpace).takeWhile
                        (fun ch => ch.isDigit || ch = ',')
                      if digits.isEmpty then none else some digits
                else none
            | [] => none
      else none

/-- re.search of the labeled-gain regex (main.py lines 136-137): first
position, scanning left to right, at which matchGainAt succeeds. -/
def searchGain (label : List Char) : List Char → Option (List Char)
  | [] => none
  | c :: t =>
      match matchGainAt label (c :: t) with
      | some g => some g
      | none => searchGain label t

/-- The matcher of the trailing-message regex at one position
(main.py line 144, case-sensitive): hash, optional whitespace, a non-empty
word-character run, the literal apostrophe-s-space-message-colon, optional
whitespace, then a non-empty same-line capture, finally stripped.  When
everything after the literal is whitespace, the greedy whitespace star
backtracks just enough for the dot-plus to take one non-newline whitespace
character, so the stripped group is empty; with only newlines left there is
no match. -/
def matchMsgAt (s : List Char) : Option String :=
  match s with
  | [] => none
  | c :: rest =>
      if c = '#' then
        let s1 := rest.dropWhile isPySpace
        if (s1.takeWhile isWordChar).isEmpty then none
        else
          match matchExact (Char.ofNat 39 :: ('s' :: ' ' :: "message:".data))
              (s1.dropWhile isWordChar) with
          | none => none
          | some s3 =>
              let s4 := s3.dropWhile isPySpace
              if s4.isEmpty then
                if s3.any (fun ch => ch ≠ '\n') then some "" else none
              else some (pyStrip (s4.takeWhile (fun ch => ch ≠ '\n')))
      else none

/-- re.search of the trailing-message regex (main.py line 144). -/
def searchMsg : List Char → Option String
  | [] => none
  | c :: t =>
      match matchMsgAt (c :: t) with
      | some m => some m
      | none => searchMsg t

/-- A last_offer value as built by glee_chat: either the labeled-text dict
of method 1 (two int-converted gains plus optional message) or the raw
parsed object of method 2. -/
inductive OfferData where
  | labeled (alice bob : Nat) (msg : Option String)
  | fromJson (fields : List (String × JVal))
deriving DecidableEq

/-- Method 1 on one message content (main.py lines 136-147): when both
labeled gains match, convert each captured group with commas removed via
int() — an empty cleaned group raises ValueError, which nothing in the
handler catches (modelled as the error case); on success also attach the
optional trailing message.  When either label is missing, method 1 does not
apply. -/
def method1 (content : List Char) : Option (Except Unit OfferData) :=
  match searchGain ("alice".data) content, searchGain ("bob".data) content with
  | some ga, some gb =>
      let ca := ga.filter (fun ch => ch ≠ ',')
      if ca.isEmpty then some (.error ())
      else
        let cb := gb.filter (fun ch => ch ≠ ',')
        if cb.isEmpty then some (.error ())
        else some (.ok (.labeled (digitsVal ca) (digitsVal cb) (searchMsg content)))
  | _, _ => none

/-- The inner fragment loop of method 2 (main.py lines 152-160): walk the
found fragments in reverse, strip thousands separators, json-parse, and
keep the first parsed object holding a gain key. -/
def method2Frags : List (List Char) → Option OfferData
  | [] => none
  | f :: rest =>
      match jparseObj (stripThousands f) with
      | some data =>
          if (jlookup data "alice_gain").isSome || (jlookup data "bob_gain").isSome
          then some (.fromJson data)
          else method2Frags rest
      | none => method2Frags rest

/-- Method 2 on one message content (main.py lines 150-162): only attempted
when an opening brace occurs in the content. -/
def method2 (content : List Char) : Option OfferData :=
  if content.contains '\x7b' then method2Frags (findFrags content).reverse
  else none

/-- The message loop of the offer extraction (main.py lines 130-162):
reversed messages, roles other than user/system skipped, method 1 then
method 2 per message, stopping at the first hit; a ValueError from method 1
aborts the handler. -/
def offerLoop : List (String × String) → Except Unit (Option OfferData)
  | [] => .ok none
  | (role, content) :: rest =>
      if role = "user" ∨ role = "system" then
        match method1 content.data with
        | some (.error e) => .error e
        | some (.ok o) => .ok (some o)
        | none =>
            match method2 content.data with
            | some o => .ok (some o)
            | none => offerLoop rest
      else offerLoop rest

/-- The last-offer extraction of glee_chat (main.py lines 125-162): runs
only on a decision turn with a non-empty message list; otherwise the offer
is absent. -/
def extract_last_offer (isDec : Bool) (msgs : List (String × String)) :
    Except Unit (Option OfferData) :=
  if isDec ∧ ¬msgs.isEmpty then offerLoop msgs.reverse else .ok none

/-! ## main.py — endpoint session guards (claim C9) -/

/-- The session metadata the handler guards consult. -/
structure GameSessionM where
  playerRole : String
  assistMode : String
  status : String
deriving DecidableEq

/-- Process-wide server state: the game_manager session table and the
bridge singleton. -/
structure ServerState where
  sessions : String → Option GameSessionM
  bridge : BridgeState

/-- HTTPException as raised by the endpoints. -/
inductive HTTPErr where
  | notFound (msg : String)
  | badRequest (msg : String)
  | forbidden (msg : String)
deriving DecidableEq

/-- POST /api/games/\x7bsession_id\x7d/respond (main.py lines 201-217):
404 on unknown session, 400 with no pending turn, otherwise submit the
response built from the request (the response JSON string is abstracted as
an argument; its construction does not touch the session table). -/
def respond_handler (srv : ServerState) (sid : String) (respJson : String) :
    Except HTTPErr (ServerState × String) :=
  match srv.sessions sid with
  | none => .error (.notFound "Game not found")
  | some _ =>
      match srv.bridge.pending sid with
      | none => .error (.badRequest "No pending turn")
      | some _ =>
          let r := submit_response srv.bridge sid respJson
          if r.2 then .ok ({ srv with bridge := r.1 }, "submitted")
          else .error (.badRequest "No pending turn to respond to")

/-- GET /api/games/\x7bsession_id\x7d (main.py lines 75-88): 404 on unknown
session, otherwise the session summary. -/
def get_game_handler (srv : ServerState) (sid : String) :
    Except HTTPErr GameSessionM :=
  match srv.sessions sid with
  | none => .error (.notFound "Game not found")
  | some s => .ok s

/-- POST /api/games/\x7bsession_id\x7d/ai-suggest (main.py lines 224-239):
404 on unknown session, 403 when assistance is disabled, otherwise the
suggestion runs (its value is out of scope here). -/
def ai_suggest_handler (srv : ServerState) (sid : String) :
    Except HTTPErr Unit :=
  match srv.sessions sid with
  | none => .error (.notFound "Game not found")
  | some s =>
      if s.assistMode ≠ "ai_assisted" then .error (.forbidden "AI suggestions disabled in this mode")
      else .ok ()

/-- POST /session/\x7bsession_id\x7d/chat entry (main.py lines 95-108 and
164-170): 404 on unknown session, otherwise the turn is registered with the
bridge (classification, push and wait are modelled separately). -/
def glee_chat_handler (srv : ServerState) (sid : String)
    (msgs : List (String × String)) (dec : Bool) (params : List (String × String)) :
    Except HTTPErr ServerState :=
  match srv.sessions sid with
  | none => .error (.notFound "Unknown session")
  | some _ =>
      .ok { srv with bridge := (register_turn srv.bridge sid msgs dec params).1 }

/-- The submit_response message branch of the WebSocket endpoint
(main.py lines 254-274): when the session and a pending turn both exist the
response is submitted and, on success, one game_state frame is sent back;
when either is missing the message is dropped — no frame is sent, no error
is raised, the state is untouched.  The second component lists the frames
sent to the client. -/
def ws_submit_handler (srv : ServerState) (sid : String) (respJson : String) :
    ServerState × List String :=
  match srv.sessions sid, srv.bridge.pending sid with
  | some _, some _ =>
      let r := submit_response srv.bridge sid respJson
      if r.2 then ({ srv with bridge := r.1 }, ["game_state"])
      else ({ srv with bridge := r.1 }, [])
  | _, _ => (srv, [])

/-- A server with no sessions created yet: the process-start state. -/
def emptyServer : ServerState :=
  { sessions := fun _ => none, bridge := initialBridge }

end GleeHumanUI

deriving instance DecidableEq for Except

namespace GleeHumanUI

/-! ## Supporting lemmas -/

lemma updFn_self {α β : Type} [DecidableEq α] (f : α → β) (k : α) (v : β) :
    updFn f k v k = v := by
  simp [updFn]

lemma updFn_ne {α β : Type} [DecidableEq α] (f : α → β) (k x : α) (v : β) (h : x ≠ k) :
    updFn f k v x = f x := by
  simp [updFn, h]

lemma pendingFresh_runOp (st : BridgeState) (h : PendingFresh st) (op : BridgeOp) :
    PendingFresh (runOp st op) := by
  cases op with
  | register sid m d p =>
      intro s t ht
      simp only [runOp, register_turn, updFn] at ht ⊢
      by_cases hs : s = sid
      · rw [if_pos hs] at ht
        cases ht
        exact Nat.lt_succ_self _
      · rw [if_neg hs] at ht
        exact Nat.lt_succ_of_lt (h s t ht)
  | submit sid r =>
      have hpn : (runOp st (.submit sid r)).pending = st.pending ∧
          (runOp st (.submit sid r)).nextId = st.nextId := by
        cases hp : st.pending sid <;> simp [runOp, submit_response, hp]
      intro s t ht
      rw [hpn.1] at ht
      rw [hpn.2]
      exact h s t ht
  | waitFin sid tid b =>
      intro s t ht
      simp only [runOp, wait_end, updFn] at ht
      by_cases hs : s = sid
      · rw [if_pos hs] at ht; cases ht
      · rw [if_neg hs] at ht; exact h s t ht

lemma pendingFresh_runOps_of (st : BridgeState) (h : PendingFresh st) (ops : List BridgeOp) :
    PendingFresh (runOps st ops) := by
  induction ops generalizing st with
  | nil => exact h
  | cons op rest ih => exact ih (runOp st op) (pendingFresh_runOp st h op)

lemma pendingFresh_initial : PendingFresh initialBridge := by
  intro s t ht
  simp [initialBridge] at ht

lemma pendingFresh_runOps (ops : List BridgeOp) : PendingFresh (runOps initialBridge ops) :=
  pendingFresh_runOps_of initialBridge pendingFresh_initial ops

lemma submit_response_none (st : BridgeState) (sid : String) (r : String)
    (h : st.pending sid = none) : submit_response st sid r = (st, false) := by
  simp [submit_response, h]

lemma round_runOp (st : BridgeState) (op : BridgeOp) (sid : String) :
    get_round_number (runOp st op) sid = get_round_number st sid + countRegs sid [op] := by
  cases op with
  | register s m d p =>
      by_cases hs : sid = s
      · subst hs
        simp [runOp, register_turn, get_round_number, updFn, countRegs]
      · simp [runOp, register_turn, get_round_number, updFn, hs, countRegs, Ne.symm hs]
  | submit s r =>
      cases hp : st.pending s with
      | none => simp [runOp, submit_response, hp, get_round_number, countRegs]
      | some tid => simp [runOp, submit_response, hp, get_round_number, countRegs]
  | waitFin s tid b =>
      simp [runOp, wait_end, get_round_number, countRegs]

lemma countRegs_cons (sid : String) (op : BridgeOp) (rest : List BridgeOp) :
    countRegs sid (op :: rest) = countRegs sid [op] + countRegs sid rest := by
  cases op <;> simp [countRegs]

lemma round_runOps (st : BridgeState) (ops : List BridgeOp) (sid : String) :
    get_round_number (runOps st ops) sid = get_round_number st sid + countRegs sid ops := by
  induction ops generalizing st with
  | nil => simp [runOps, countRegs]
  | cons op rest ih =>
      have h1 : runOps st (op :: rest) = runOps (runOp st op) rest := rfl
      rw [h1, ih (runOp st op), countRegs_cons sid op rest, round_runOp st op sid]
      omega

/-! ## Claim theorems: the turn bridge -/

/-- C1: register_turn for a session that already holds an unresolved
PendingTurn unconditionally replaces it in the pending table — no error, no
queueing: after registration the pending table holds exactly the new turn,
the new turn is a different object from any previously pending one, and a
subsequent get_pending or submit_response observes (and resolves) only the
most recently registered turn, leaving the replaced turn object untouched. -/
theorem register_turn_replaces_pending (st : BridgeState) (hf : PendingFresh st)
    (sid : String) (m : List (String × String)) (d : Bool)
    (p : List (String × String)) (r : String) :
    get_pending (register_turn st sid m d p).1 sid = some (register_turn st sid m d p).2 ∧
    (∀ old, st.pending sid = some old →
      old ≠ (register_turn st sid m d p).2 ∧
      (submit_response (register_turn st sid m d p).1 sid r).1.heap old = st.heap old) ∧
    (submit_response (register_turn st sid m d p).1 sid r).2 = true ∧
    ((submit_response (register_turn st sid m d p).1 sid r).1.heap
        (register_turn st sid m d p).2).response = some r := by
  have hpend : (register_turn st sid m d p).1.pending sid = some st.nextId := by
    simp [register_turn, updFn]
  have hid : (register_turn st sid m d p).2 = st.nextId := rfl
  refine ⟨?_, ?_, ?_, ?_⟩
  · simpa [get_pending, hid] using hpend
  · intro old hold
    have hlt : old < st.nextId := hf sid old hold
    have hne : old ≠ st.nextId := Nat.ne_of_lt hlt
    refine ⟨by simpa [hid] using hne, ?_⟩
    simp only [submit_response, hpend]
    simp [register_turn, updFn, hne]
  · simp only [submit_response, hpend]
  · simp only [submit_response, hpend, hid]
    simp [register_turn, updFn]

/-- Witness for C1 at a concrete state: one turn already registered for
session s, a second registration replaces it. -/
theorem register_turn_replaces_pending_witness :
    get_pending (register_turn (runOps initialBridge [BridgeOp.register "s" [] false []])
        "s" [] false []).1 "s"
      = some (register_turn (runOps initialBridge [BridgeOp.register "s" [] false []])
        "s" [] false []).2 ∧
    (0 : Nat) ≠ (register_turn (runOps initialBridge [BridgeOp.register "s" [] false []])
        "s" [] false []).2 := by
  have h := register_turn_replaces_pending
    (runOps initialBridge [BridgeOp.register "s" [] false []])
    (pendingFresh_runOps [BridgeOp.register "s" [] false []]) "s" [] false [] "r"
  exact ⟨h.1, (h.2.1 0 (by decide)).1⟩

/-- C2: with a registered unresolved PendingTurn, the first submit_response
returns true, attaches the answer and sets the resolution event; the waiter
then resumes with exactly that answer and pops the table entry; after the
delivery a second submit_response returns false and changes nothing, so the
answer already delivered stays what the first call attached.  A
submit_response against a session with no pending turn returns false and
leaves the state untouched. -/
theorem submit_response_exactly_once (st : BridgeState) (sid : String) (tid : Nat)
    (a a2 : String) (hp : st.pending sid = some tid) :
    (∀ st0 s0 r0, BridgeState.pending st0 s0 = none → submit_response st0 s0 r0 = (st0, false)) ∧
    (submit_response st sid a).2 = true ∧
    ((submit_response st sid a).1.heap tid).response = some a ∧
    ((submit_response st sid a).1.heap tid).eventSet = true ∧
    (wait_end (submit_response st sid a).1 sid tid false).2 = some a ∧
    ((wait_end (submit_response st sid a).1 sid tid false).1).pending sid = none ∧
    (submit_response ((wait_end (submit_response st sid a).1 sid tid false).1) sid a2)
      = ((wait_end (submit_response st sid a).1 sid tid false).1, false) ∧
    (((submit_response ((wait_end (submit_response st sid a).1 sid tid false).1) sid a2).1).heap
        tid).response = some a := by
  have h1 : (submit_response st sid a).1.heap tid
      = { st.heap tid with response := some a, eventSet := true } := by
    simp [submit_response, hp, updFn]
  have hpend1 : (submit_response st sid a).1.pending sid = some tid := by
    simp [submit_response, hp]
  have hpop : ((wait_end (submit_response st sid a).1 sid tid false).1).pending sid = none := by
    simp [wait_end, updFn]
  have hsec : (submit_response ((wait_end (submit_response st sid a).1 sid tid false).1) sid a2)
      = ((wait_end (submit_response st sid a).1 sid tid false).1, false) :=
    submit_response_none _ sid a2 hpop
  refine ⟨?_, ?_, ?_, ?_, ?_, hpop, hsec, ?_⟩
  · intro st0 s0 r0 h0
    exact submit_response_none st0 s0 r0 h0
  · simp [submit_response, hp]
  · rw [h1]
  · rw [h1]
  · simp [wait_end, h1]
  · rw [hsec]
    simp [wait_end, h1]

/-- Witness for C2 at a concrete state: a single registered turn for
session s, answered with a1 and then again with a2. -/
theorem submit_response_exactly_once_witness :
    ((submit_response (runOps initialBridge [BridgeOp.register "s" [] false []]) "s" "a1").1.heap
        0).response = some "a1" ∧
    (submit_response ((wait_end
        (submit_response (runOps initialBridge [BridgeOp.register "s" [] false []]) "s" "a1").1
        "s" 0 false).1) "s" "a2").2 = false := by
  have h := submit_response_exactly_once
    (runOps initialBridge [BridgeOp.register "s" [] false []]) "s" 0 "a1" "a2" (by decide)
  exact ⟨h.2.2.1, by rw [h.2.2.2.2.2.2.1]⟩

/-- C3: wait_for_response with an elapsed timeout and no resolution returns
the timeout sentinel None, and on every return path — answer, timeout, or
nothing pending at entry — it leaves no PendingTurn registered for the
session. -/
theorem wait_for_response_clears (st : BridgeState) (sid : String) :
    (wait_for_response st sid true).2 = none ∧
    (∀ b, ((wait_for_response st sid b).1).pending sid = none) ∧
    (∀ b, get_pending ((wait_for_response st sid b).1) sid = none) := by
  cases hp : st.pending sid with
  | none =>
      refine ⟨by simp [wait_for_response, hp], fun b => ?_, fun b => ?_⟩ <;>
        simp [wait_for_response, hp, get_pending]
  | some tid =>
      refine ⟨by simp [wait_for_response, hp, wait_end], fun b => ?_, fun b => ?_⟩ <;>
        simp [wait_for_response, hp, wait_end, get_pending, updFn]

/-- C4: the round number reported for a session after any trace of bridge
operations equals exactly the number of register_turn calls for that
session in the trace, whatever submit_response calls and waiter resumptions
(resolutions or timeouts) happened in between. -/
theorem get_round_number_counts (ops : List BridgeOp) (sid : String) :
    get_round_number (runOps initialBridge ops) sid = countRegs sid ops := by
  have h := round_runOps initialBridge ops sid
  simpa [get_round_number, initialBridge] using h

/-- C10: the pending-table removal performed when a waiter resumes is keyed
by the session id alone: it removes whatever turn the table currently holds
for the session, even one installed by a register_turn later than the turn
the waiter was actually awaiting. -/
theorem wait_end_removes_by_session (st : BridgeState) (sid : String)
    (tidW tidNew : Nat) (b : Bool)
    (hp : st.pending sid = some tidNew) (hne : tidNew ≠ tidW) :
    ((wait_end st sid tidW b).1).pending sid = none ∧
    get_pending ((wait_end st sid tidW b).1) sid = none := by
  constructor <;> simp [wait_end, get_pending, updFn]

/-- Witness for C10 at a concrete trace: the waiter of the first registered
turn (object 0) times out after a second registration installed object 1;
its resumption still removes the pending entry for the session. -/
theorem wait_end_removes_by_session_witness :
    ((wait_end (runOps initialBridge
        [BridgeOp.register "s" [] false [], BridgeOp.register "s" [] false []])
        "s" 0 true).1).pending "s" = none :=
  (wait_end_removes_by_session
    (runOps initialBridge [BridgeOp.register "s" [] false [], BridgeOp.register "s" [] false []])
    "s" 0 1 true (by decide) (by decide)).1

/-! ## Claim theorems: outcome classification (C5) -/

lemma scanGains_skip_prefix (suf rest : List (List Char)) (fa fb : Int)
    (h : ∀ l ∈ suf, lineRes l = .skip) :
    scanGains (suf ++ rest) (fa, fb) = scanGains rest (fa, fb) := by
  induction suf with
  | nil => rfl
  | cons l t ih =>
      have hl : lineRes l = .skip := h l (by simp)
      have hstep : scanGains (l :: (t ++ rest)) (fa, fb) = scanGains (t ++ rest) (fa, fb) := by
        simp only [scanGains, hl]
      rw [List.cons_append, hstep, ih (fun x hx => h x (by simp [hx]))]

/-- C5 counterexample: exit code 0, acceptance marker present, and the most
recent line holding a gain key fails to json-parse; the claim says the gain
fields then default to zero, but the scan falls through to the previous
record and reports its gains. -/
theorem parse_outcome_last_record_cex :
    parse_outcome
      "Bob accepted the offer\n\x7b\"alice_gain\": 100, \"bob_gain\": 200\x7d\n\x7b\"alice_gain\": oops\x7d"
      0 = ("deal", 100, 200) ∧
    (("deal", 100, 200) : String × Int × Int) ≠ ("deal", 0, 0) := by
  exact ⟨by decide, by decide⟩

/-- C5 as amended: non-zero exit yields error with zero gains; exit 0
without the acceptance marker yields no_deal with zero gains; with the
marker the outcome is deal and the gains come from the most recent line
whose payoff record parses — unparseable records are skipped in favour of
earlier ones, and the gains default to zero only when no record parses;
no path raises. -/
theorem parse_outcome_classified :
    (∀ stdout rc, rc ≠ 0 → parse_outcome stdout rc = ("error", 0, 0)) ∧
    (∀ stdout, containsSub (strLower stdout) "accepted the offer" = false →
      parse_outcome stdout 0 = ("no_deal", 0, 0)) ∧
    (∀ stdout suf L pre (a b : Int),
      containsSub (strLower stdout) "accepted the offer" = true →
      (splitLines stdout).reverse = suf ++ L :: pre →
      (∀ l ∈ suf, lineRes l = .skip) →
      lineRes L = .final a b →
      parse_outcome stdout 0 = ("deal", a, b)) ∧
    (∀ stdout, containsSub (strLower stdout) "accepted the offer" = true →
      (∀ l ∈ splitLines stdout, lineRes l = .skip) →
      parse_outcome stdout 0 = ("deal", 0, 0)) := by
  refine ⟨?_, ?_, ?_, ?_⟩
  · intro stdout rc h
    simp [parse_outcome, h]
  · intro stdout hm
    simp [parse_outcome, hm]
  · intro stdout suf L pre a b hm hsplit hskip hfin
    have hsc : scanGains ((splitLines stdout).reverse) (0, 0) = (a, b) := by
      rw [hsplit, scanGains_skip_prefix suf (L :: pre) 0 0 hskip]
      simp only [scanGains, hfin]
    simp [parse_outcome, hm]
    simpa using hsc
  · intro stdout hm hall
    have hsc : scanGains ((splitLines stdout).reverse) (0, 0) = (0, 0) := by
      have h := scanGains_skip_prefix ((splitLines stdout).reverse) [] 0 0
        (fun l hl => hall l (List.mem_reverse.mp hl))
      simpa using h
    simp [parse_outcome, hm]
    simpa using hsc

/-- Witness for C5 as amended, exercising all four branches at concrete
captured outputs, including the fall-through past an unparseable most
recent record. -/
theorem parse_outcome_classified_witness :
    parse_outcome "engine crashed" 1 = ("error", 0, 0) ∧
    parse_outcome "no marker here" 0 = ("no_deal", 0, 0) ∧
    parse_outcome
      "Bob accepted the offer\n\x7b\"alice_gain\": 100, \"bob_gain\": 200\x7d\n\x7b\"alice_gain\": oops\x7d"
      0 = ("deal", 100, 200) ∧
    parse_outcome "Alice accepted the offer" 0 = ("deal", 0, 0) := by
  refine ⟨parse_outcome_classified.1 "engine crashed" 1 (by decide),
    parse_outcome_classified.2.1 "no marker here" (by decide),
    parse_outcome_classified.2.2.1
      "Bob accepted the offer\n\x7b\"alice_gain\": 100, \"bob_gain\": 200\x7d\n\x7b\"alice_gain\": oops\x7d"
      ["\x7b\"alice_gain\": oops\x7d".data]
      ("\x7b\"alice_gain\": 100, \"bob_gain\": 200\x7d".data)
      ["Bob accepted the offer".data] 100 200
      (by decide) (by decide) (by decide) (by decide),
    parse_outcome_classified.2.2.2 "Alice accepted the offer" (by decide) (by decide)⟩

/-! ## Claim theorems: split-suggestion normalisation (C6) -/

/-- C6: when the provider reply contains a JSON object with two numeric
gain fields of positive sum, the returned split sums exactly to the pot,
with alice at the rounded proportional share of the pot and bob at the
remainder; in particular the reply with gains 7000 and 1000 at pot 10000
yields 8750 and 1250. -/
theorem suggest_split_normalized (text : String) (money : ℤ) (frag : List Char)
    (data : List (String × JVal)) (a b : ℤ)
    (h1 : searchFragDotAll text.data = some frag)
    (h2 : jparseObj frag = some data)
    (h3 : jlookup data "alice_gain" = some (.int a))
    (h4 : jlookup data "bob_gain" = some (.int b))
    (hpos : 0 < a + b) :
    (suggest_split text money).1 + (suggest_split text money).2 = (money : ℚ) ∧
    (suggest_split text money).1
      = ((roundHalfEven ((a : ℚ) / ((a : ℚ) + (b : ℚ)) * (money : ℚ))) : ℚ) ∧
    suggest_split "\x7b\"alice_gain\": 7000, \"bob_gain\": 1000\x7d" 10000 = (8750, 1250) := by
  have hq : (0 : ℚ) < (a : ℚ) + (b : ℚ) := by exact_mod_cast hpos
  have hs : suggest_split text money
      = (((roundHalfEven ((a : ℚ) / ((a : ℚ) + (b : ℚ)) * (money : ℚ))) : ℚ),
         (((money - roundHalfEven ((a : ℚ) / ((a : ℚ) + (b : ℚ)) * (money : ℚ))) : ℤ) : ℚ)) := by
    rw [suggest_split, h1]
    simp only [h2, h3, h4, pyFloat]
    rw [if_pos hq]
  refine ⟨?_, ?_, ?_⟩
  · rw [hs]
    push_cast
    ring
  · rw [hs]
  · have g1 : searchFragDotAll ("\x7b\"alice_gain\": 7000, \"bob_gain\": 1000\x7d".data)
        = some ("\x7b\"alice_gain\": 7000, \"bob_gain\": 1000\x7d".data) := by decide
    have g2 : jparseObj ("\x7b\"alice_gain\": 7000, \"bob_gain\": 1000\x7d".data)
        = some [("alice_gain", .int 7000), ("bob_gain", .int 1000)] := by decide
    have g3 : jlookup [("alice_gain", JVal.int 7000), ("bob_gain", JVal.int 1000)] "alice_gain"
        = some (.int 7000) := by decide
    have g4 : jlookup [("alice_gain", JVal.int 7000), ("bob_gain", JVal.int 1000)] "bob_gain"
        = some (.int 1000) := by decide
    rw [suggest_split, g1]
    simp only [g2, g3, g4, pyFloat]
    norm_num
    have g6 : roundHalfEven (8750 : ℚ) = 8750 := by
      rw [show ((8750 : ℚ)) = ((8750 : ℤ) : ℚ) by norm_num]
      simp [roundHalfEven]
    rw [g6]
    norm_num

/-- Witness for C6 at the concrete provider reply from the specification. -/
theorem suggest_split_normalized_witness :
    (suggest_split "\x7b\"alice_gain\": 7000, \"bob_gain\": 1000\x7d" 10000).1
      + (suggest_split "\x7b\"alice_gain\": 7000, \"bob_gain\": 1000\x7d" 10000).2
      = ((10000 : ℤ) : ℚ) :=
  (suggest_split_normalized "\x7b\"alice_gain\": 7000, \"bob_gain\": 1000\x7d" 10000
    ("\x7b\"alice_gain\": 7000, \"bob_gain\": 1000\x7d".data)
    [("alice_gain", .int 7000), ("bob_gain", .int 1000)] 7000 1000
    (by decide) (by decide) (by decide) (by decide) (by decide)).1

/-! ## Claim theorems: decision-turn classification (C7) -/

lemma scanDecision_skip_prefix (l1 rest : List (String × String))
    (h : ∀ q ∈ l1, q.1 ≠ "user" ∧ q.1 ≠ "system") :
    scanDecision (l1 ++ rest) = scanDecision rest := by
  induction l1 with
  | nil => rfl
  | cons q t ih =>
      have hq := h q (by simp)
      have hstep : scanDecision ((q :: t) ++ rest) = scanDecision (t ++ rest) := by
        obtain ⟨r, c⟩ := q
        have hcond : ¬(r = "user" ∨ r = "system") := by
          rintro (h1 | h1)
          · exact hq.1 h1
          · exact hq.2 h1
        simp only [List.cons_append, scanDecision]
        rw [if_neg hcond]
        rfl
      rw [hstep, ih (fun x hx => h x (by simp [hx]))]

/-- C7: a turn whose most recent user/system message contains both the
accept token and the reject token (after lowercasing) is classified as a
decision turn even when the engine flag in the request is false, whatever
non-user/system messages follow it. -/
theorem decision_turn_fallback (pre : List (String × String)) (r c : String)
    (post : List (String × String))
    (hrole : r = "user" ∨ r = "system")
    (hpost : ∀ q ∈ post, q.1 ≠ "user" ∧ q.1 ≠ "system")
    (hacc : containsSub (strLower c) "accept" = true)
    (hrej : containsSub (strLower c) "reject" = true) :
    is_decision_turn false (pre ++ (r, c) :: post) = true := by
  have hne : (pre ++ (r, c) :: post).isEmpty = false := by
    cases pre <;> simp
  have hrev : (pre ++ (r, c) :: post).reverse = post.reverse ++ ((r, c) :: pre.reverse) := by
    simp
  rw [is_decision_turn]
  simp only [Bool.false_eq_true, if_false, hne]
  rw [hrev,
    scanDecision_skip_prefix post.reverse _ (fun q hq => hpost q (List.mem_reverse.mp hq))]
  simp only [scanDecision]
  rw [if_pos hrole]
  simp [hacc, hrej]

/-- Witness for C7: the flag is false, the most recent user message says
Accept and Reject in mixed case, and an assistant message follows it. -/
theorem decision_turn_fallback_witness :
    is_decision_turn false
      [("system", "rules"), ("user", "You may Accept or else Reject this."), ("assistant", "ok")]
      = true :=
  decision_turn_fallback [("system", "rules")] "user" "You may Accept or else Reject this."
    [("assistant", "ok")] (Or.inl rfl) (by decide) (by decide) (by decide)

/-! ## Claim theorems: last-offer extraction (C8) -/

/-- C8 counterexample: on a decision turn whose labeled gain matches a run
consisting of a lone comma, the int conversion of the comma-stripped empty
group raises a ValueError that nothing catches — the extraction neither
reports the offer as absent nor avoids raising. -/
theorem extract_last_offer_raises_cex :
    extract_last_offer true [("user", "# Alice gain: ,\n# Bob gain: 7")] = .error () := by
  decide

/-- C8 as amended: on a decision turn the labeled text format with
thousands-separator commas yields the stripped numeric pair, a JSON
fragment embedded in prose yields the same structured pair, and extraction
failure reports the offer as absent without raising — except that a labeled
gain whose matched numeral consists only of commas raises an uncaught
ValueError. -/
theorem extract_last_offer_behaviour :
    extract_last_offer true [("user", "# Alice gain: 3,500\n# Bob gain: 6,500")]
      = .ok (some (.labeled 3500 6500 none)) ∧
    extract_last_offer true
      [("user",
        "I propose the following: \x7b\"alice_gain\": 4000, \"bob_gain\": 6000\x7d please respond")]
      = .ok (some (.fromJson [("alice_gain", .int 4000), ("bob_gain", .int 6000)])) ∧
    extract_last_offer true [("user", "no offer here")] = .ok none ∧
    extract_last_offer false [("user", "# Alice gain: 3,500\n# Bob gain: 6,500")] = .ok none := by
  exact ⟨by decide, by decide, by decide, by decide⟩

/-! ## Claim theorems: unknown-session handling (C9) -/

/-- C9 counterexample: a WebSocket submit_response message against a
session id that does not exist is dropped silently — no frame goes back to
the caller and the state is untouched, rather than a not-found failure
being surfaced. -/
theorem ws_submit_unknown_session_silent :
    ws_submit_handler emptyServer "deadbeef" "resp" = (emptyServer, []) := rfl

/-- C9 as amended: every HTTP operation against a non-existent session id —
creating a chat turn, submitting a response over REST, requesting an AI
suggestion, fetching game state — fails with a not-found error surfaced to
the caller; the exceptions are track_event and the WebSocket-delivered
submit_response, which is silently dropped. -/
theorem unknown_session_not_found (srv : ServerState) (sid : String)
    (h : srv.sessions sid = none) (respJson : String)
    (msgs : List (String × String)) (dec : Bool) (params : List (String × String)) :
    respond_handler srv sid respJson = .error (.notFound "Game not found") ∧
    get_game_handler srv sid = .error (.notFound "Game not found") ∧
    ai_suggest_handler srv sid = .error (.notFound "Game not found") ∧
    glee_chat_handler srv sid msgs dec params = .error (.notFound "Unknown session") ∧
    ws_submit_handler srv sid respJson = (srv, []) := by
  refine ⟨?_, ?_, ?_, ?_, ?_⟩
  · simp [respond_handler, h]
  · simp [get_game_handler, h]
  · simp [ai_suggest_handler, h]
  · simp [glee_chat_handler, h]
  · cases hb : srv.bridge.pending sid <;> simp [ws_submit_handler, h, hb]

/-- Witness for C9 as amended, at the empty server. -/
theorem unknown_session_not_found_witness :
    respond_handler emptyServer "nosuch" "r" = .error (.notFound "Game not found") ∧
    glee_chat_handler emptyServer "nosuch" [] false [] = .error (.notFound "Unknown session") := by
  have h := unknown_session_not_found emptyServer "nosuch" rfl "r" [] false []
  exact ⟨h.1, h.2.2.2.1⟩

end GleeHumanUI
